import Mathlib

/-!
Shallow embedding of the NMS straight-line planner core (src/App.jsx).

JavaScript numbers are modelled as exact rationals (ℚ), following the spec's
data model ("three real-valued coordinates", "parameter: real in [0,1]",
"real division"); IEEE-754 rounding and NaN are outside the model.  The one
place this matters is `linePoints` at `numCheckpoints = 0`, where JS produces
`0/0 = NaN`; that state is unreachable through the public entry points (the
count input clamps, import defaults falsy counts to 50, and the load effect
rejects falsy counts), and no theorem below depends on it.

JSON documents are modelled at the value level (`JVal`); `JSON.parse` of a
`JSON.stringify` output is the identity on such values, so import/export are
composed directly on `JVal`.  `Option JVal` stands for the result of
`JSON.parse`: `none` is a parse exception, `some v` a parsed value.
-/

namespace NMSPlanner

/-- `lerp` from src/App.jsx: `a + (b - a) * t`. -/
def lerp (a b t : ℚ) : ℚ :=
  a + (b - a) * t

/-- A 3D position, the planner's `[x, y, z]` arrays. -/
structure Vec3 where
  x : ℚ
  y : ℚ
  z : ℚ
deriving DecidableEq

/-- `lerpVec` from src/App.jsx: componentwise `lerp`. -/
def lerpVec (a b : Vec3) (t : ℚ) : Vec3 :=
  ⟨lerp a.x b.x t, lerp a.y b.y t, lerp a.z b.z t⟩

/-- One generated checkpoint `{ x, y, z, t }` as pushed by the `linePoints`
loop in src/App.jsx. -/
structure Checkpoint where
  x : ℚ
  y : ℚ
  z : ℚ
  t : ℚ
deriving DecidableEq

/-- Number of iterations of `for (let i = 0; i <= numCheckpoints; i++)`:
none when the bound is negative, otherwise `⌊bound⌋ + 1`. -/
def loopCount (q : ℚ) : ℕ :=
  if q < 0 then 0 else (⌊q⌋ + 1).toNat

/-- `linePoints` from src/App.jsx: for each loop index `i`, parameter
`t = i / numCheckpoints` and position `lerpVec start end t`. -/
def linePoints (start finish : Vec3) (numCheckpoints : ℚ) : List Checkpoint :=
  (List.range (loopCount numCheckpoints)).map fun (i : ℕ) =>
    let t : ℚ := (i : ℚ) / numCheckpoints
    let p := lerpVec start finish t
    ⟨p.x, p.y, p.z, t⟩

/-- `done.filter(Boolean).length` from src/App.jsx. -/
def completedCount (done : List Bool) : ℕ :=
  (done.filter fun b => b).length

/-- `progress` from src/App.jsx:
`linePoints.length > 1 ? (completedCount / (linePoints.length - 1)) * 100 : 0`. -/
def progress (done : List Bool) (pts : List Checkpoint) : ℚ :=
  if 1 < pts.length then (completedCount done : ℚ) / ((pts.length : ℚ) - 1) * 100 else 0

/-- The reconciliation effect from src/App.jsx: a fresh array of length `n`
filled with `false`, then `out[i] = prev[i]` for `i < min(prev.length, n)`. -/
def reconcile (prev : List Bool) (n : ℕ) : List Bool :=
  (List.range n).map fun i => if h : i < prev.length then prev[i] else false

/-- `done.findIndex((v) => !v)` from src/App.jsx, with `none` for `-1`. -/
def findIndexNotDone : List Bool → Option ℕ
  | [] => none
  | b :: rest => if !b then some 0 else (findIndexNotDone rest).map (· + 1)

/-- `currentPoint` from src/App.jsx: the checkpoint at the first false flag,
or `linePoints[linePoints.length - 1]` when every flag is true; `none` models
JavaScript `undefined` (out-of-range array access). -/
def currentPoint (done : List Bool) (pts : List Checkpoint) : Option Checkpoint :=
  match findIndexNotDone done with
  | none => pts[pts.length - 1]?
  | some idx => pts[idx]?

/-- A JSON/JavaScript value, as produced by `JSON.parse`. -/
inductive JVal where
  | num (q : ℚ)
  | bool (b : Bool)
  | str (s : String)
  | null
  | arr (elems : List JVal)
  | obj (fields : List (String × JVal))

/-- JavaScript truthiness of a `JVal` (`NaN` is outside the model). -/
def JVal.truthy : JVal → Bool
  | .num q => decide (q ≠ 0)
  | .bool b => b
  | .str s => decide (s ≠ "")
  | .null => false
  | .arr _ => true
  | .obj _ => true

/-- First binding for a key in an object's field list. -/
def lookupField : List (String × JVal) → String → Option JVal
  | [], _ => none
  | (k, v) :: rest, key => if k = key then some v else lookupField rest key

/-- JavaScript property access `v[key]`: a binding on objects, `undefined`
(`none`) on every other non-null value.  Access on `null` throws and is
modelled separately at each call site. -/
def JVal.getField : JVal → String → Option JVal
  | .obj fields, key => lookupField fields key
  | _, _ => none

/-- Truthiness of a possibly-`undefined` value. -/
def jsTruthy : Option JVal → Bool
  | none => false
  | some v => v.truthy

/-- JavaScript `x || d` on a possibly-`undefined` `x`. -/
def jsOr (x : Option JVal) (d : JVal) : JVal :=
  if jsTruthy x then x.getD d else d

/-- JavaScript `x ?? d` on a possibly-`undefined` `x`. -/
def jsNullish (x : Option JVal) (d : JVal) : JVal :=
  match x with
  | none => d
  | some .null => d
  | some v => v

/-- The five React state atoms of src/App.jsx, as JavaScript values. -/
structure StateVars where
  start : JVal
  finish : JVal
  numCheckpoints : JVal
  radius : JVal
  done : JVal

/-- The state written by the success branch of `handleImportJSON`:
`setStart(obj.start); setEnd(obj.end); setNumCheckpoints(obj.numCheckpoints || 50);
setRadius(obj.radius || 500); setDone(obj.done || [])`. -/
def importedState (v : JVal) : StateVars :=
  ⟨(v.getField "start").getD .null,
   (v.getField "end").getD .null,
   jsOr (v.getField "numCheckpoints") (.num 50),
   jsOr (v.getField "radius") (.num 500),
   jsOr (v.getField "done") (.arr [])⟩

/-- `handleImportJSON` from src/App.jsx on the parsed file text: the new
state plus whether the `alert("Invalid JSON")` notice fires.  `none` input is
a `JSON.parse` exception; a parsed `null` throws a `TypeError` at `obj.start`,
also caught by the same handler.  The guard is `if (obj.start && obj.end)`;
when it fails nothing is set and no notice is produced. -/
def handleImportJSON (st : StateVars) (input : Option JVal) : StateVars × Bool :=
  match input with
  | none => (st, true)
  | some .null => (st, true)
  | some v =>
    if jsTruthy (v.getField "start") && jsTruthy (v.getField "end") then
      (importedState v, false)
    else
      (st, false)

/-- The state written by the success branch of the localStorage load effect:
`setStart(obj.start); setEnd(obj.end); setNumCheckpoints(obj.numCheckpoints);
setRadius(obj.radius ?? 500); setDone(obj.done ?? [])`. -/
def loadedState (v : JVal) : StateVars :=
  ⟨(v.getField "start").getD .null,
   (v.getField "end").getD .null,
   (v.getField "numCheckpoints").getD .null,
   jsNullish (v.getField "radius") (.num 500),
   jsNullish (v.getField "done") (.arr [])⟩

/-- The guard `if (obj.start && obj.end && obj.numCheckpoints)` of the load
effect. -/
def loadGuard (v : JVal) : Bool :=
  jsTruthy (v.getField "start") && jsTruthy (v.getField "end") &&
    jsTruthy (v.getField "numCheckpoints")

/-- The localStorage load effect from src/App.jsx.  `stored = none` is an
absent (or empty) stored string; `some none` is a stored string on which
`JSON.parse` throws (caught by the empty `catch`); `some (some v)` is a
parsed value.  A parsed `null` throws a `TypeError` at `obj.start`, also
caught.  On every failure path the in-memory state is untouched. -/
def loadEffect (st : StateVars) (stored : Option (Option JVal)) : StateVars :=
  match stored with
  | none => st
  | some none => st
  | some (some .null) => st
  | some (some v) => if loadGuard v then loadedState v else st

/-- `handleExportJSON` from src/App.jsx: the serialized document
`{ start, end, numCheckpoints, radius, done }`, at the JSON-value level. -/
def handleExportJSON (st : StateVars) : JVal :=
  .obj [("start", st.start), ("end", st.finish), ("numCheckpoints", st.numCheckpoints),
        ("radius", st.radius), ("done", st.done)]

/-- A well-typed snapshot, the spec's Snapshot record. -/
structure Snapshot where
  start : Vec3
  finish : Vec3
  numCheckpoints : ℚ
  radius : ℚ
  done : List Bool
deriving DecidableEq

/-- A `Vec3` as the JSON array `[x, y, z]`. -/
def encVec3 (v : Vec3) : JVal :=
  .arr [.num v.x, .num v.y, .num v.z]

/-- The React state holding a well-typed snapshot. -/
def Snapshot.toVars (s : Snapshot) : StateVars :=
  ⟨encVec3 s.start, encVec3 s.finish, .num s.numCheckpoints, .num s.radius,
   .arr (s.done.map JVal.bool)⟩

/-- Read a JSON number back as a rational. -/
def decNum : JVal → Option ℚ
  | .num q => some q
  | _ => none

/-- Read a JSON boolean. -/
def decBool : JVal → Option Bool
  | .bool b => some b
  | _ => none

/-- Read a `[x, y, z]` JSON array back as a `Vec3`. -/
def decVec3 : JVal → Option Vec3
  | .arr [.num a, .num b, .num c] => some ⟨a, b, c⟩
  | _ => none

/-- Read a list of JSON booleans. -/
def decBoolList : List JVal → Option (List Bool)
  | [] => some []
  | v :: rest => do
    let b ← decBool v
    let bs ← decBoolList rest
    pure (b :: bs)

/-- Read a JSON array of booleans. -/
def decBools : JVal → Option (List Bool)
  | .arr xs => decBoolList xs
  | _ => none

/-- Read the React state back as a well-typed snapshot, when possible. -/
def decodeVars (st : StateVars) : Option Snapshot := do
  let s ← decVec3 st.start
  let e ← decVec3 st.finish
  let n ← decNum st.numCheckpoints
  let r ← decNum st.radius
  let d ← decBools st.done
  pure ⟨s, e, n, r, d⟩

/-- The `# of Checkpoints` input handler from src/App.jsx:
`Math.max(1, parseInt(e.target.value) || 1)`; `none` models a `NaN` parse. -/
def setNumCheckpointsClamp (parsed : Option ℤ) : ℤ :=
  max 1 (match parsed with
         | none => 1
         | some k => if k = 0 then 1 else k)

/-- The initial React state of src/App.jsx. -/
def defaultVars : StateVars :=
  Snapshot.toVars ⟨⟨0, 0, 0⟩, ⟨400, 50, -300⟩, 50, 500, []⟩

/-!
### Binary64 rounding model

The source evaluates `lerp` in IEEE-754 binary64, not in exact arithmetic.
To settle the boundary-exactness claim against the program we model binary64
abstractly: `Representable q` says q is a finite double (significand below
2^53, exponent within the binary64 range), and the evaluation `lerp64` takes
an arbitrary rounding function `f` that is assumed, where it matters, to fix
representable values and to return a nearest representable — properties that
hold of the actual round-to-nearest-even mode.  Conclusions quantified over
every such `f` therefore apply to the program's arithmetic.
-/

/-- A finite IEEE-754 binary64 value: `m * 2^e` with `|m| < 2^53` and the
exponent within the binary64 finite range. -/
def Representable (q : ℚ) : Prop :=
  ∃ m e : ℤ, |m| < 2 ^ 53 ∧ -1074 ≤ e ∧ e ≤ 971 ∧ q = (m : ℚ) * (2 : ℚ) ^ e

/-- The source's `lerp` body `a + (b - a) * t` evaluated in binary64: each
of the three arithmetic operations rounds its exact result with `f`. -/
def lerp64 (f : ℚ → ℚ) (a b t : ℚ) : ℚ :=
  f (a + f (f (b - a) * t))

/-- `lerpVec` evaluated in binary64. -/
def lerpVec64 (f : ℚ → ℚ) (a b : Vec3) (t : ℚ) : Vec3 :=
  ⟨lerp64 f a.x b.x t, lerp64 f a.y b.y t, lerp64 f a.z b.z t⟩

/-- `linePoints` evaluated in binary64: the parameter `i / numCheckpoints`
is one rounded division, positions are `lerpVec64`.  (Loop indices and
bounds are small integers, exact in binary64.) -/
def linePoints64 (f : ℚ → ℚ) (start finish : Vec3) (numCheckpoints : ℚ) :
    List Checkpoint :=
  (List.range (loopCount numCheckpoints)).map fun (i : ℕ) =>
    let t : ℚ := f ((i : ℚ) / numCheckpoints)
    let p := lerpVec64 f start finish t
    ⟨p.x, p.y, p.z, t⟩

/-- A rounding function used to witness the binary64 hypotheses: it rounds
the one non-representable value reached in the failing computation,
`1 - 10^16`, to the nearest representable `-10^16` (the round-half-even
choice) and fixes everything else. -/
def rnWitness (q : ℚ) : ℚ :=
  if q = 1 - 10 ^ 16 then -(10 : ℚ) ^ 16 else q

/-! ### Helper lemmas -/

lemma lerp_zero (a b : ℚ) : lerp a b 0 = a := by
  simp [lerp]

lemma lerp_one (a b : ℚ) : lerp a b 1 = b := by
  unfold lerp; ring

lemma loopCount_natCast (c : ℕ) : loopCount (c : ℚ) = c + 1 := by
  have h0 : ¬ ((c : ℚ) < 0) := not_lt.mpr (by positivity)
  rw [loopCount, if_neg h0, Int.floor_natCast]
  omega

lemma linePoints_length (s e : Vec3) (c : ℕ) :
    (linePoints s e (c : ℚ)).length = c + 1 := by
  simp [linePoints, loopCount_natCast]

lemma linePoints_getElem? (s e : Vec3) (c i : ℕ) (h : i ≤ c) :
    (linePoints s e (c : ℚ))[i]? =
      some ⟨lerp s.x e.x ((i : ℚ) / (c : ℚ)), lerp s.y e.y ((i : ℚ) / (c : ℚ)),
            lerp s.z e.z ((i : ℚ) / (c : ℚ)), (i : ℚ) / (c : ℚ)⟩ := by
  rw [linePoints, List.getElem?_map, loopCount_natCast, List.getElem?_range (by omega)]
  rfl

lemma linePoints_getElem?_lt_length (s e : Vec3) (q : ℚ) (i : ℕ) (p : Checkpoint)
    (h : (linePoints s e q)[i]? = some p) : i < (linePoints s e q).length := by
  by_contra h'
  rw [List.getElem?_eq_none (by omega)] at h
  cases h

/-! ### Claim theorems -/

/-- In exact arithmetic the interpolation formula does reproduce both
endpoints (t = 0 gives start, t = count/count = 1 gives end); the boundary
failure established below is therefore purely a floating-point rounding
artifact of the source's double-precision evaluation. -/
theorem linePoints_boundary_exact_rat (s e : Vec3) (count : ℕ) (h : 1 ≤ count) :
    (linePoints s e (count : ℚ))[0]? = some ⟨s.x, s.y, s.z, 0⟩ ∧
    (linePoints s e (count : ℚ))[count]? = some ⟨e.x, e.y, e.z, 1⟩ := by
  have hc : ((count : ℚ)) ≠ 0 := by
    have : (0 : ℚ) < (count : ℚ) := by exact_mod_cast Nat.lt_of_lt_of_le Nat.zero_lt_one h
    exact ne_of_gt this
  constructor
  · rw [linePoints_getElem? s e count 0 (by omega)]
    simp [lerp_zero]
  · rw [linePoints_getElem? s e count count le_rfl, div_self hc]
    simp [lerp_one]

lemma representable_near_target (r : ℚ) (hr : Representable r)
    (hclose : |(1 - 10 ^ 16 : ℚ) - r| ≤ 1) :
    r = -(10 : ℚ) ^ 16 ∨ r = (-9999999999999998 : ℚ) := by
  obtain ⟨m, e, hm, _, _, heq⟩ := hr
  by_cases he : e ≤ 0
  · exfalso
    have h2e : (2 : ℚ) ^ e ≤ 1 := zpow_le_one_of_nonpos₀ (by norm_num) he
    have h2ep : (0 : ℚ) < (2 : ℚ) ^ e := zpow_pos (by norm_num) e
    have hmq : |(m : ℚ)| < 2 ^ 53 := by exact_mod_cast hm
    have hrabs : |r| ≤ |(m : ℚ)| := by
      rw [heq, abs_mul, abs_of_pos h2ep]
      calc |(m : ℚ)| * (2 : ℚ) ^ e ≤ |(m : ℚ)| * 1 :=
            mul_le_mul_of_nonneg_left h2e (abs_nonneg _)
        _ = |(m : ℚ)| := mul_one _
    have hq0 : |(1 - 10 ^ 16 : ℚ)| = 9999999999999999 := by
      rw [abs_of_nonpos (by norm_num)]
      norm_num
    have hge := abs_sub_abs_le_abs_sub (1 - 10 ^ 16 : ℚ) r
    have h53 : ((2 : ℚ) ^ 53) = 9007199254740992 := by norm_num
    linarith
  · push_neg at he
    obtain ⟨n, rfl⟩ : ∃ n : ℕ, e = (n : ℤ) + 1 := ⟨(e - 1).toNat, by omega⟩
    have hpow : (2 : ℚ) ^ ((n : ℤ) + 1) = ((2 ^ (n + 1) : ℤ) : ℚ) := by
      have hcast : ((n : ℤ) + 1) = ((n + 1 : ℕ) : ℤ) := by push_cast; ring
      rw [hcast, zpow_natCast]
      push_cast
      ring
    set k : ℤ := m * 2 ^ (n + 1) with hk
    have hrk : r = (k : ℚ) := by
      rw [heq, hpow, hk]
      push_cast
      ring
    have hkdist : |(1 - 10 ^ 16 - k : ℤ)| ≤ 1 := by
      have hcast : ((1 - 10 ^ 16 - k : ℤ) : ℚ) = (1 - 10 ^ 16 : ℚ) - r := by
        rw [hrk]
        push_cast
        ring
      have : |((1 - 10 ^ 16 - k : ℤ) : ℚ)| ≤ 1 := by rw [hcast]; exact hclose
      exact_mod_cast this
    have hkeven : k % 2 = 0 := by
      have h2k : k = 2 * (m * 2 ^ n) := by rw [hk]; ring
      omega
    rw [abs_le] at hkdist
    have hkval : k = -(10 ^ 16) ∨ k = -9999999999999998 := by omega
    rcases hkval with h | h
    · left
      rw [hrk, h]
      push_cast
      ring
    · right
      rw [hrk, h]
      push_cast
      ring

lemma representable_dist_target (r : ℚ) (hr : Representable r) :
    1 ≤ |(1 - 10 ^ 16 : ℚ) - r| := by
  by_contra h
  push_neg at h
  rcases representable_near_target r hr (le_of_lt h) with h' | h' <;>
    rw [h'] at h <;> rw [abs_lt] at h <;> norm_num at h

lemma target_not_representable : ¬ Representable (1 - 10 ^ 16 : ℚ) := by
  intro h
  rcases representable_near_target _ h (by simp) with h' | h' <;> norm_num at h'

lemma neg_ten_pow_representable : Representable (-(10 : ℚ) ^ 16) :=
  ⟨-5000000000000000, 1, by norm_num, by norm_num, by norm_num, by norm_num⟩

/-- C1: the claim asserts exact boundary equality with no floating-point
error, but the source computes the final checkpoint by evaluating the
interpolation formula in binary64 rather than assigning the endpoint
directly, and exactness fails there: at start = (10^16, 0, 0),
end = (1, 0, 0), count = 1, for every rounding `f` that fixes representable
values and returns a nearest representable at the one inexact intermediate
`1 - 10^16` (as round-to-nearest-even does), the generated checkpoint at
index count has x-coordinate 0 or 2 — never the end coordinate 1. -/
theorem c1_float_boundary_code_bug (f : ℚ → ℚ)
    (hfix : ∀ q, Representable q → f q = q)
    (hrep : Representable (f (1 - 10 ^ 16)))
    (hnear : ∀ r, Representable r →
      |(1 - 10 ^ 16 : ℚ) - f (1 - 10 ^ 16)| ≤ |(1 - 10 ^ 16 : ℚ) - r|) :
    ∃ p : Checkpoint,
      (linePoints64 f ⟨10 ^ 16, 0, 0⟩ ⟨1, 0, 0⟩ 1)[1]? = some p ∧ p.x ≠ 1 := by
  have h2 : loopCount (1 : ℚ) = 2 := by
    have hcast : ((1 : ℕ) : ℚ) = (1 : ℚ) := by norm_num
    rw [← hcast, loopCount_natCast]
  have hrange : List.range 2 = [0, 1] := by decide
  have hel : (linePoints64 f ⟨10 ^ 16, 0, 0⟩ ⟨1, 0, 0⟩ 1)[1]? =
      some ⟨lerp64 f (10 ^ 16) 1 (f ((1 : ℚ) / 1)),
            lerp64 f 0 0 (f ((1 : ℚ) / 1)),
            lerp64 f 0 0 (f ((1 : ℚ) / 1)), f ((1 : ℚ) / 1)⟩ := by
    simp only [linePoints64, h2, hrange, List.map_cons, List.map_nil, lerpVec64,
      Nat.cast_one, List.getElem?_cons_succ, List.getElem?_cons_zero]
  refine ⟨_, hel, ?_⟩
  show lerp64 f (10 ^ 16) 1 (f ((1 : ℚ) / 1)) ≠ 1
  have hone : Representable 1 := ⟨1, 0, by norm_num, by norm_num, by norm_num, by norm_num⟩
  have ht : f ((1 : ℚ) / 1) = 1 := by
    rw [one_div_one]
    exact hfix 1 hone
  rw [lerp64, ht, mul_one, hfix _ hrep]
  have hb : |(1 - 10 ^ 16 : ℚ) - f (1 - 10 ^ 16)| ≤ 1 := by
    have h := hnear _ neg_ten_pow_representable
    have habs : |(1 - 10 ^ 16 : ℚ) - -(10 : ℚ) ^ 16| = 1 := by
      rw [abs_of_nonneg (by norm_num)]
      norm_num
    rw [habs] at h
    exact h
  rcases representable_near_target _ hrep hb with h | h
  · rw [h]
    have hsum : (10 : ℚ) ^ 16 + -(10 : ℚ) ^ 16 = 0 := by ring
    rw [hsum, hfix 0 ⟨0, 0, by norm_num, by norm_num, by norm_num, by norm_num⟩]
    norm_num
  · rw [h]
    have hsum : (10 : ℚ) ^ 16 + (-9999999999999998 : ℚ) = 2 := by norm_num
    rw [hsum, hfix 2 ⟨1, 1, by norm_num, by norm_num, by norm_num, by norm_num⟩]
    norm_num

lemma rnWitness_fix : ∀ q, Representable q → rnWitness q = q := by
  intro q hq
  rw [rnWitness]
  split_ifs with hc
  · exact absurd (hc ▸ hq) target_not_representable
  · rfl

lemma rnWitness_rep : Representable (rnWitness (1 - 10 ^ 16)) := by
  rw [rnWitness, if_pos rfl]
  exact neg_ten_pow_representable

lemma rnWitness_near : ∀ r, Representable r →
    |(1 - 10 ^ 16 : ℚ) - rnWitness (1 - 10 ^ 16)| ≤ |(1 - 10 ^ 16 : ℚ) - r| := by
  intro r hr
  have hval : rnWitness (1 - 10 ^ 16) = -(10 : ℚ) ^ 16 := by
    rw [rnWitness, if_pos rfl]
  rw [hval]
  have habs : |(1 - 10 ^ 16 : ℚ) - -(10 : ℚ) ^ 16| = 1 := by
    rw [abs_of_nonneg (by norm_num)]
    norm_num
  rw [habs]
  exact representable_dist_target r hr

/-- Witness for C1's binary64 analysis: the explicit rounding `rnWitness`
(round-half-even at the one inexact intermediate) satisfies the rounding
hypotheses, and under it the checkpoint at index count of the failing input
does not carry the end coordinate. -/
theorem c1_float_boundary_code_bug_witness :
    Representable (rnWitness (1 - 10 ^ 16)) ∧
    (∃ p : Checkpoint,
      (linePoints64 rnWitness ⟨10 ^ 16, 0, 0⟩ ⟨1, 0, 0⟩ 1)[1]? = some p ∧ p.x ≠ 1) :=
  ⟨rnWitness_rep,
   c1_float_boundary_code_bug rnWitness rnWitness_fix rnWitness_rep rnWitness_near⟩

/-- C6: for every start, end and count ≥ 1, `linePoints` returns exactly
count + 1 checkpoints; the checkpoint at index i carries parameter
t = i / count and the per-axis interpolated position; parameters are strictly
increasing in index, running from 0 at index 0 to 1 at index count. -/
theorem c6_sequence_shape (s e : Vec3) (count : ℕ) (h : 1 ≤ count) :
    (linePoints s e (count : ℚ)).length = count + 1 ∧
    (∀ i : ℕ, i ≤ count → (linePoints s e (count : ℚ))[i]? =
      some ⟨lerp s.x e.x ((i : ℚ) / (count : ℚ)), lerp s.y e.y ((i : ℚ) / (count : ℚ)),
            lerp s.z e.z ((i : ℚ) / (count : ℚ)), (i : ℚ) / (count : ℚ)⟩) ∧
    (∀ i j : ℕ, ∀ p q : Checkpoint, (linePoints s e (count : ℚ))[i]? = some p →
      (linePoints s e (count : ℚ))[j]? = some q → i < j → p.t < q.t) := by
  have hc : (0 : ℚ) < (count : ℚ) := by exact_mod_cast Nat.lt_of_lt_of_le Nat.zero_lt_one h
  refine ⟨linePoints_length s e count, fun i hi => linePoints_getElem? s e count i hi, ?_⟩
  intro i j p q hp hq hij
  have hj : j ≤ count := by
    have := linePoints_getElem?_lt_length s e (count : ℚ) j q hq
    rw [linePoints_length] at this
    omega
  have hi : i ≤ count := by omega
  rw [linePoints_getElem? s e count i hi] at hp
  rw [linePoints_getElem? s e count j hj] at hq
  have hp' : p.t = (i : ℚ) / (count : ℚ) := by
    cases hp; rfl
  have hq' : q.t = (j : ℚ) / (count : ℚ) := by
    cases hq; rfl
  rw [hp', hq']
  have hij' : (i : ℚ) < (j : ℚ) := by exact_mod_cast hij
  gcongr

/-- Witness for C6 at start = (0,0,0), end = (400,50,−300), count = 2. -/
theorem c6_sequence_shape_witness :
    1 ≤ 2 ∧ (linePoints ⟨0, 0, 0⟩ ⟨400, 50, -300⟩ ((2 : ℕ) : ℚ)).length = 2 + 1 :=
  ⟨by norm_num, (c6_sequence_shape ⟨0, 0, 0⟩ ⟨400, 50, -300⟩ 2 (by norm_num)).1⟩

lemma reconcile_getElem? (prev : List Bool) (n i : ℕ) (h : i < n) :
    (reconcile prev n)[i]? = some (if h' : i < prev.length then prev[i] else false) := by
  rw [reconcile, List.getElem?_map, List.getElem?_range h]
  rfl

/-- C7: `reconcile(previousFlags, n)` returns a list of length exactly n,
copying `previousFlags[i]` at every index below `min(previousFlags.length, n)`
and filling `false` at every remaining index; when n equals the previous
length it is the identity. -/
theorem c7_reconcile_shape (prev : List Bool) (n : ℕ) :
    (reconcile prev n).length = n ∧
    (∀ i : ℕ, i < min prev.length n → (reconcile prev n)[i]? = prev[i]?) ∧
    (∀ i : ℕ, min prev.length n ≤ i → i < n → (reconcile prev n)[i]? = some false) ∧
    (n = prev.length → reconcile prev n = prev) := by
  refine ⟨by simp [reconcile], ?_, ?_, ?_⟩
  · intro i hi
    rw [reconcile_getElem? prev n i (by omega), dif_pos (by omega),
      List.getElem?_eq_getElem (by omega)]
  · intro i h1 h2
    rw [reconcile_getElem? prev n i h2, dif_neg (by omega)]
  · intro hn
    refine List.ext_getElem? fun i => ?_
    by_cases hi : i < n
    · rw [reconcile_getElem? prev n i hi, dif_pos (by omega),
        List.getElem?_eq_getElem (by omega)]
    · rw [List.getElem?_eq_none (by simp [reconcile]; omega),
        List.getElem?_eq_none (by omega)]

/-- Witness for C7 at previousFlags = [true, false], n = 4. -/
theorem c7_reconcile_shape_witness :
    (reconcile [true, false] 4).length = 4 ∧
    (0 : ℕ) < min ([true, false] : List Bool).length 4 ∧
    (reconcile [true, false] 4)[0]? = ([true, false] : List Bool)[0]? ∧
    (min ([true, false] : List Bool).length 4 ≤ 3 ∧ 3 < 4 ∧
      (reconcile [true, false] 4)[3]? = some false) :=
  ⟨(c7_reconcile_shape [true, false] 4).1, by norm_num,
   (c7_reconcile_shape [true, false] 4).2.1 0 (by norm_num),
   by norm_num, by norm_num, (c7_reconcile_shape [true, false] 4).2.2.1 3 (by norm_num) (by norm_num)⟩

lemma completedCount_le (done : List Bool) : completedCount done ≤ done.length :=
  List.length_filter_le _ _

lemma completedCount_all_true (done : List Bool) (h : ∀ b ∈ done, b = true) :
    completedCount done = done.length := by
  rw [completedCount, List.filter_eq_self.mpr (by intro a ha; simp [h a ha])]

/-- C2 (amended): across flag states aligned to the checkpoint sequence,
`progress` equals completedCount / (length − 1) × 100 when the sequence has
more than one point and 0 otherwise; it is always ≥ 0; on a multi-point path
it is ≤ 100 exactly when completedCount ≤ length − 1, and when every flag is
true it equals length / (length − 1) × 100, which exceeds 100. -/
theorem c2_progress_formula (done : List Bool) (pts : List Checkpoint)
    (hlen : done.length = pts.length) :
    (pts.length ≤ 1 → progress done pts = 0) ∧
    (1 < pts.length →
      progress done pts = (completedCount done : ℚ) / ((pts.length : ℚ) - 1) * 100) ∧
    0 ≤ progress done pts ∧
    (1 < pts.length → (progress done pts ≤ 100 ↔ completedCount done ≤ pts.length - 1)) ∧
    (1 < pts.length → (∀ b ∈ done, b = true) →
      progress done pts = (pts.length : ℚ) / ((pts.length : ℚ) - 1) * 100 ∧
      100 < progress done pts) := by
  by_cases hL : 1 < pts.length
  · have hL' : (1 : ℚ) < (pts.length : ℚ) := by exact_mod_cast hL
    have hpos : (0 : ℚ) < (pts.length : ℚ) - 1 := by linarith
    have hform : progress done pts =
        (completedCount done : ℚ) / ((pts.length : ℚ) - 1) * 100 := by
      rw [progress, if_pos hL]
    refine ⟨fun h => absurd hL (by omega), fun _ => hform, ?_, fun _ => ?_, fun _ hall => ?_⟩
    · rw [hform]
      have h1 : (0 : ℚ) ≤ (completedCount done : ℚ) := by positivity
      have := div_nonneg h1 (le_of_lt hpos)
      linarith
    · rw [hform]
      constructor
      · intro hle
        have hq : (completedCount done : ℚ) ≤ (pts.length : ℚ) - 1 := by
          rw [div_mul_eq_mul_div, div_le_iff₀ hpos] at hle
          linarith
        have hq' : (completedCount done : ℚ) ≤ ((pts.length - 1 : ℕ) : ℚ) := by
          rwa [Nat.cast_sub (by omega), Nat.cast_one]
        exact_mod_cast hq'
      · intro hle
        have hq : (completedCount done : ℚ) ≤ (pts.length : ℚ) - 1 := by
          have hq' : ((completedCount done : ℕ) : ℚ) ≤ ((pts.length - 1 : ℕ) : ℚ) := by
            exact_mod_cast hle
          rwa [Nat.cast_sub (by omega), Nat.cast_one] at hq'
        rw [div_mul_eq_mul_div, div_le_iff₀ hpos]
        linarith
    · have hcc : completedCount done = pts.length := by
        rw [completedCount_all_true done hall, hlen]
      rw [hform, hcc]
      refine ⟨rfl, ?_⟩
      rw [div_mul_eq_mul_div, lt_div_iff₀ hpos]
      linarith
  · have h0 : progress done pts = 0 := by
      rw [progress, if_neg hL]
    exact ⟨fun _ => h0, fun h => absurd h hL, by rw [h0], fun h => absurd h hL,
      fun h => absurd h hL⟩

/-- Witness for C2 (amended) at the spec's scenario: completion
[true, false, true] over the 3 checkpoints of a count-2 path, where the
formula yields 100. -/
theorem c2_progress_formula_witness :
    ([true, false, true] : List Bool).length =
      (linePoints ⟨0, 0, 0⟩ ⟨400, 50, -300⟩ ((2 : ℕ) : ℚ)).length ∧
    1 < (linePoints ⟨0, 0, 0⟩ ⟨400, 50, -300⟩ ((2 : ℕ) : ℚ)).length ∧
    progress [true, false, true] (linePoints ⟨0, 0, 0⟩ ⟨400, 50, -300⟩ ((2 : ℕ) : ℚ)) =
      (completedCount [true, false, true] : ℚ) /
        (((linePoints ⟨0, 0, 0⟩ ⟨400, 50, -300⟩ ((2 : ℕ) : ℚ)).length : ℚ) - 1) * 100 :=
  ⟨by rw [linePoints_length]; rfl, by rw [linePoints_length]; omega,
   (c2_progress_formula _ _ (by rw [linePoints_length]; rfl)).2.1
     (by rw [linePoints_length]; omega)⟩

/-- C2 counterexample: the claim asserts `progress` always lies in [0, 100]
and is 100 when all flags are true; but over the 2 checkpoints of a count-1
path with both flags true (a reachable, aligned state) it evaluates to 200. -/
theorem c2_range_counterexample :
    ([true, true] : List Bool).length = (linePoints ⟨0, 0, 0⟩ ⟨1, 1, 1⟩ 1).length ∧
    (∀ b ∈ ([true, true] : List Bool), b = true) ∧
    progress [true, true] (linePoints ⟨0, 0, 0⟩ ⟨1, 1, 1⟩ 1) = 200 ∧
    ¬ (progress [true, true] (linePoints ⟨0, 0, 0⟩ ⟨1, 1, 1⟩ 1) ≤ 100) := by
  have h2 : (linePoints ⟨0, 0, 0⟩ ⟨1, 1, 1⟩ (1 : ℚ)).length = 2 := by
    have := linePoints_length ⟨0, 0, 0⟩ ⟨1, 1, 1⟩ 1
    simpa using this
  have hp : progress [true, true] (linePoints ⟨0, 0, 0⟩ ⟨1, 1, 1⟩ 1) = 200 := by
    rw [progress, if_pos (by rw [h2]; omega), h2]
    norm_num [completedCount]
  exact ⟨by rw [h2]; rfl, by simp, hp, by rw [hp]; norm_num⟩

lemma findIndexNotDone_all_true (l : List Bool) (h : ∀ b ∈ l, b = true) :
    findIndexNotDone l = none := by
  induction l with
  | nil => rfl
  | cons a rest ih =>
    have ha : a = true := h a (by simp)
    have ih' := ih fun b hb => h b (by simp [hb])
    simp [findIndexNotDone, ha, ih']

lemma findIndexNotDone_first_false (l : List Bool) (i : ℕ)
    (htake : ∀ j : ℕ, j < i → l[j]? = some true) (hi : l[i]? = some false) :
    findIndexNotDone l = some i := by
  induction l generalizing i with
  | nil => simp at hi
  | cons a rest ih =>
    cases i with
    | zero =>
      have ha : a = false := by simpa using hi
      simp [findIndexNotDone, ha]
    | succ n =>
      have ha : a = true := by simpa using htake 0 (by omega)
      have htake' : ∀ j : ℕ, j < n → rest[j]? = some true := by
        intro j hj
        simpa using htake (j + 1) (by omega)
      have hi' : rest[n]? = some false := by simpa using hi
      simp [findIndexNotDone, ha, ih n htake' hi']

/-- C9: for a flag state aligned to a non-empty checkpoint sequence,
`currentPoint` returns the checkpoint at the smallest index with a false
flag, scanning in index order; if every flag is true it returns the last
checkpoint. -/
theorem c9_current_checkpoint (done : List Bool) (pts : List Checkpoint)
    (hlen : done.length = pts.length) (hne : pts ≠ []) :
    ((∀ b ∈ done, b = true) → currentPoint done pts = some (pts.getLast hne)) ∧
    (∀ i : ℕ, (∀ j : ℕ, j < i → done[j]? = some true) → done[i]? = some false →
      i < pts.length ∧ currentPoint done pts = pts[i]?) := by
  constructor
  · intro hall
    have hpos : 0 < pts.length := List.length_pos.mpr hne
    rw [currentPoint, findIndexNotDone_all_true done hall]
    show pts[pts.length - 1]? = some (pts.getLast hne)
    rw [List.getElem?_eq_getElem (by omega), List.getLast_eq_getElem (l := pts) hne]
  · intro i htake hi
    have hil : i < done.length := by
      by_contra h'
      rw [List.getElem?_eq_none (by omega)] at hi
      cases hi
    rw [currentPoint, findIndexNotDone_first_false done i htake hi]
    exact ⟨by omega, rfl⟩

/-- Witness for C9 at the spec's scenario: completion [true, false, true]
over the 3 checkpoints of a count-2 path returns the checkpoint at index 1. -/
theorem c9_current_checkpoint_witness :
    (([true, false, true] : List Bool)[1]? = some false) ∧
    1 < (linePoints ⟨0, 0, 0⟩ ⟨400, 50, -300⟩ ((2 : ℕ) : ℚ)).length ∧
    currentPoint [true, false, true] (linePoints ⟨0, 0, 0⟩ ⟨400, 50, -300⟩ ((2 : ℕ) : ℚ)) =
      (linePoints ⟨0, 0, 0⟩ ⟨400, 50, -300⟩ ((2 : ℕ) : ℚ))[1]? := by
  have hlen : ([true, false, true] : List Bool).length =
      (linePoints ⟨0, 0, 0⟩ ⟨400, 50, -300⟩ ((2 : ℕ) : ℚ)).length := by
    rw [linePoints_length]
    rfl
  have hne : linePoints ⟨0, 0, 0⟩ ⟨400, 50, -300⟩ ((2 : ℕ) : ℚ) ≠ [] := by
    apply List.ne_nil_of_length_pos
    rw [linePoints_length]
    omega
  have h := (c9_current_checkpoint [true, false, true] _ hlen hne).2 1
    (fun j hj => by interval_cases j; rfl) rfl
  exact ⟨rfl, by omega, h.2⟩

lemma linePoints_length_intCast (s e : Vec3) (k : ℤ) (hk : 0 ≤ k) :
    (linePoints s e ((k : ℤ) : ℚ)).length = k.toNat + 1 := by
  have h0 : ¬ (((k : ℤ) : ℚ) < 0) := not_lt.mpr (by exact_mod_cast hk)
  simp [linePoints, loopCount, h0, Int.floor_intCast]
  omega

/-- The stored document `{start:[0,0,0], end:[1,1,1], numCheckpoints:-3}`. -/
def negCountDoc : JVal :=
  .obj [("start", .arr [.num 0, .num 0, .num 0]), ("end", .arr [.num 1, .num 1, .num 1]),
        ("numCheckpoints", .num (-3))]

/-- C3 counterexample: importing a document with `numCheckpoints: -3` is
accepted without error, stores the count −3 unclamped, and the generated
checkpoint sequence at count −3 is empty — not of length at least 2. -/
theorem c3_clamp_counterexample :
    (handleImportJSON defaultVars (some negCountDoc)).1.numCheckpoints = JVal.num (-3) ∧
    (handleImportJSON defaultVars (some negCountDoc)).2 = false ∧
    (linePoints ⟨0, 0, 0⟩ ⟨1, 1, 1⟩ (-3)).length = 0 := by
  refine ⟨rfl, rfl, ?_⟩
  norm_num [linePoints, loopCount]

/-- C3 (amended): only the direct count edit clamps — its handler always
yields a count ≥ 1 and hence a sequence of length ≥ 2 — while the
persistence-load path passes a truthy negative count through unclamped
(and the import path likewise, per the counterexample). -/
theorem c3_clamp_only_direct_edit :
    (∀ p : Option ℤ, 1 ≤ setNumCheckpointsClamp p) ∧
    (∀ (s e : Vec3) (p : Option ℤ),
      2 ≤ (linePoints s e ((setNumCheckpointsClamp p : ℤ) : ℚ)).length) ∧
    (loadEffect defaultVars (some (some negCountDoc))).numCheckpoints = JVal.num (-3) := by
  have hc : ∀ p : Option ℤ, 1 ≤ setNumCheckpointsClamp p := fun p => le_max_left 1 _
  refine ⟨hc, fun s e p => ?_, rfl⟩
  rw [linePoints_length_intCast s e _ (le_trans zero_le_one (hc p))]
  have := hc p
  omega

lemma decBools_encode (l : List Bool) : decBools (.arr (l.map JVal.bool)) = some l := by
  induction l with
  | nil => rfl
  | cons a rest ih =>
    simp only [decBools, List.map_cons, decBoolList] at ih ⊢
    simp [decBool, ih]

lemma decodeVars_toVars (s : Snapshot) : decodeVars s.toVars = some s := by
  simp [decodeVars, Snapshot.toVars, encVec3, decVec3, decNum, decBools_encode]

/-- C4 (amended): for every snapshot whose checkpoint count and radius are
nonzero (hence truthy), importing the exported document reproduces the
snapshot exactly in all five fields, into any prior state. -/
theorem c4_roundtrip (s : Snapshot) (st : StateVars) (hn : s.numCheckpoints ≠ 0)
    (hr : s.radius ≠ 0) :
    handleImportJSON st (some (handleExportJSON s.toVars)) = (s.toVars, false) ∧
    decodeVars s.toVars = some s := by
  refine ⟨?_, decodeVars_toVars s⟩
  simp [handleImportJSON, handleExportJSON, Snapshot.toVars, importedState, JVal.getField,
    lookupField, jsTruthy, JVal.truthy, jsOr, encVec3, hn, hr]

/-- Witness for C4 at snapshot start (1,2,3), end (4,5,6), count 2,
radius 500, completion [true, false]. -/
theorem c4_roundtrip_witness :
    ((2 : ℚ) ≠ 0 ∧ (500 : ℚ) ≠ 0) ∧
    handleImportJSON defaultVars
        (some (handleExportJSON (Snapshot.toVars ⟨⟨1, 2, 3⟩, ⟨4, 5, 6⟩, 2, 500, [true, false]⟩))) =
      (Snapshot.toVars ⟨⟨1, 2, 3⟩, ⟨4, 5, 6⟩, 2, 500, [true, false]⟩, false) ∧
    decodeVars (Snapshot.toVars ⟨⟨1, 2, 3⟩, ⟨4, 5, 6⟩, 2, 500, [true, false]⟩) =
      some ⟨⟨1, 2, 3⟩, ⟨4, 5, 6⟩, 2, 500, [true, false]⟩ :=
  ⟨⟨by norm_num, by norm_num⟩,
   (c4_roundtrip ⟨⟨1, 2, 3⟩, ⟨4, 5, 6⟩, 2, 500, [true, false]⟩ defaultVars
     (by norm_num) (by norm_num)).1,
   (c4_roundtrip ⟨⟨1, 2, 3⟩, ⟨4, 5, 6⟩, 2, 500, [true, false]⟩ defaultVars
     (by norm_num) (by norm_num)).2⟩

/-- A snapshot with radius 0. -/
def zeroRadiusSnap : Snapshot :=
  ⟨⟨0, 0, 0⟩, ⟨1, 1, 1⟩, 2, 0, []⟩

/-- C4 counterexample: the snapshot with radius 0 does not round-trip — its
export, re-imported, decodes to the same snapshot except radius 500. -/
theorem c4_roundtrip_counterexample :
    decodeVars (handleImportJSON defaultVars
        (some (handleExportJSON zeroRadiusSnap.toVars))).1 =
      some ⟨⟨0, 0, 0⟩, ⟨1, 1, 1⟩, 2, 500, []⟩ ∧
    (⟨⟨0, 0, 0⟩, ⟨1, 1, 1⟩, 2, 500, []⟩ : Snapshot) ≠ zeroRadiusSnap :=
  ⟨rfl, by decide⟩

/-- C5 counterexample: importing the parsed document with only a start field
of [0, 0, 0] (end missing) leaves the prior state unchanged but produces no
user-visible notice — the notice flag is false, although the claim requires a
notice on every failure. -/
theorem c5_silent_failure_counterexample :
    handleImportJSON defaultVars (some (.obj [("start", .arr [.num 0, .num 0, .num 0])])) =
      (defaultVars, false) := rfl

/-- C5 (amended): import is all-or-nothing — the state is either untouched or
replaced wholesale by the five imported fields; the notice fires exactly when
the text is not well-formed JSON or parses to `null`; a parsed object lacking
a truthy `start` or `end` is ignored silently, with no notice and no state
change. -/
theorem c5_import_all_or_nothing (st : StateVars) (input : Option JVal) :
    ((handleImportJSON st input).1 = st ∨
      ∃ v, input = some v ∧ handleImportJSON st input = (importedState v, false)) ∧
    ((handleImportJSON st input).2 = true ↔ input = none ∨ input = some JVal.null) ∧
    (∀ fields, input = some (.obj fields) →
      (jsTruthy ((JVal.obj fields).getField "start") = false ∨
        jsTruthy ((JVal.obj fields).getField "end") = false) →
      handleImportJSON st input = (st, false)) := by
  refine ⟨?_, ?_, ?_⟩
  · cases input with
    | none => exact Or.inl rfl
    | some v =>
      cases v with
      | null => exact Or.inl rfl
      | num q => exact Or.inl rfl
      | bool b => exact Or.inl rfl
      | str s => exact Or.inl rfl
      | arr xs => exact Or.inl rfl
      | obj fields =>
        by_cases hg : (jsTruthy ((JVal.obj fields).getField "start") &&
            jsTruthy ((JVal.obj fields).getField "end")) = true
        · exact Or.inr ⟨.obj fields, rfl, by simp only [handleImportJSON, if_pos hg]⟩
        · exact Or.inl (by simp only [handleImportJSON, if_neg hg])
  · cases input with
    | none => simp [handleImportJSON]
    | some v =>
      cases v with
      | null => simp [handleImportJSON]
      | num q => simp [handleImportJSON, jsTruthy, JVal.getField]
      | bool b => simp [handleImportJSON, jsTruthy, JVal.getField]
      | str s => simp [handleImportJSON, jsTruthy, JVal.getField]
      | arr xs => simp [handleImportJSON, jsTruthy, JVal.getField]
      | obj fields =>
        by_cases hg : (jsTruthy ((JVal.obj fields).getField "start") &&
            jsTruthy ((JVal.obj fields).getField "end")) = true
        · simp only [handleImportJSON, if_pos hg]
          simp
        · simp only [handleImportJSON, if_neg hg]
          simp
  · intro fields hin hmiss
    subst hin
    have hg : (jsTruthy ((JVal.obj fields).getField "start") &&
        jsTruthy ((JVal.obj fields).getField "end")) = false := by
      rcases hmiss with h | h <;> simp [h]
    simp only [handleImportJSON, hg, if_neg]
    simp

/-- Witness for C5 at a parsed object with only an `end` field: the start
field is untruthy and the import is a silent no-op. -/
theorem c5_import_all_or_nothing_witness :
    jsTruthy ((JVal.obj [("end", .arr [.num 1, .num 2, .num 3])]).getField "start") = false ∧
    handleImportJSON defaultVars (some (.obj [("end", .arr [.num 1, .num 2, .num 3])])) =
      (defaultVars, false) :=
  ⟨rfl, (c5_import_all_or_nothing defaultVars
    (some (.obj [("end", .arr [.num 1, .num 2, .num 3])]))).2.2
    [("end", .arr [.num 1, .num 2, .num 3])] rfl (Or.inl rfl)⟩

/-- C8: the load effect is total — it either leaves the state untouched or
installs the loaded fields wholesale; an absent stored value, an unparseable
one, or one lacking a required field (start, end, numCheckpoints) leaves the
state as-is; when the guard passes, a missing radius defaults to 500 and a
missing completion list to the empty array. -/
theorem c8_load_never_throws (st : StateVars) (stored : Option (Option JVal)) :
    (loadEffect st stored = st ∨
      ∃ v, stored = some (some v) ∧ loadEffect st stored = loadedState v) ∧
    (stored = none → loadEffect st stored = st) ∧
    (stored = some none → loadEffect st stored = st) ∧
    (∀ v, stored = some (some v) →
      (v.getField "start" = none ∨ v.getField "end" = none ∨
        v.getField "numCheckpoints" = none) →
      loadEffect st stored = st) ∧
    (∀ v, stored = some (some v) → loadGuard v = true →
      loadEffect st stored = loadedState v ∧
      (v.getField "radius" = none → (loadedState v).radius = JVal.num 500) ∧
      (v.getField "done" = none → (loadedState v).done = JVal.arr [])) := by
  refine ⟨?_, ?_, ?_, ?_, ?_⟩
  · match stored with
    | none => exact Or.inl rfl
    | some none => exact Or.inl rfl
    | some (some v) =>
      cases v with
      | null => exact Or.inl rfl
      | num q => exact Or.inl rfl
      | bool b => exact Or.inl rfl
      | str s => exact Or.inl rfl
      | arr xs =>
        by_cases hg : loadGuard (.arr xs) = true
        · exact Or.inr ⟨.arr xs, rfl, by simp only [loadEffect, if_pos hg]⟩
        · exact Or.inl (by simp only [loadEffect, if_neg hg])
      | obj fields =>
        by_cases hg : loadGuard (.obj fields) = true
        · exact Or.inr ⟨.obj fields, rfl, by simp only [loadEffect, if_pos hg]⟩
        · exact Or.inl (by simp only [loadEffect, if_neg hg])
  · intro h; subst h; rfl
  · intro h; subst h; rfl
  · intro v hv hmiss
    subst hv
    cases v with
    | null => rfl
    | num q => rfl
    | bool b => rfl
    | str s => rfl
    | arr xs =>
      have hg : loadGuard (.arr xs) = false := by
        rcases hmiss with h | h | h <;> simp [loadGuard, h, jsTruthy]
      simp only [loadEffect, hg, if_neg]
      simp
    | obj fields =>
      have hg : loadGuard (.obj fields) = false := by
        rcases hmiss with h | h | h <;> simp [loadGuard, h, jsTruthy]
      simp only [loadEffect, hg, if_neg]
      simp
  · intro v hv hg
    subst hv
    refine ⟨?_, fun hr => by simp [loadedState, hr, jsNullish],
      fun hd => by simp [loadedState, hd, jsNullish]⟩
    cases v with
    | null => simp [loadGuard, JVal.getField, jsTruthy, JVal.truthy] at hg
    | num q => simp [loadGuard, JVal.getField, jsTruthy] at hg
    | bool b => simp [loadGuard, JVal.getField, jsTruthy] at hg
    | str s => simp [loadGuard, JVal.getField, jsTruthy] at hg
    | arr xs => simp only [loadEffect, if_pos hg]
    | obj fields => simp only [loadEffect, if_pos hg]

/-- A stored document with required fields only (no radius, no done). -/
def bareLoadDoc : JVal :=
  .obj [("start", .arr [.num 0, .num 0, .num 0]), ("end", .arr [.num 1, .num 1, .num 1]),
        ("numCheckpoints", .num 5)]

/-- Witness for C8 at a stored document lacking radius and completion. -/
theorem c8_load_never_throws_witness :
    loadGuard bareLoadDoc = true ∧
    loadEffect defaultVars (some (some bareLoadDoc)) = loadedState bareLoadDoc ∧
    (loadedState bareLoadDoc).radius = JVal.num 500 ∧
    (loadedState bareLoadDoc).done = JVal.arr [] :=
  ⟨rfl,
   ((c8_load_never_throws defaultVars (some (some bareLoadDoc))).2.2.2.2
     bareLoadDoc rfl rfl).1,
   ((c8_load_never_throws defaultVars (some (some bareLoadDoc))).2.2.2.2
     bareLoadDoc rfl rfl).2.1 rfl,
   ((c8_load_never_throws defaultVars (some (some bareLoadDoc))).2.2.2.2
     bareLoadDoc rfl rfl).2.2 rfl⟩

/-- An import/stored document with zero-valued numCheckpoints and radius. -/
def zeroFieldsDoc : JVal :=
  .obj [("start", .arr [.num 0, .num 0, .num 0]), ("end", .arr [.num 1, .num 1, .num 1]),
        ("numCheckpoints", .num 0), ("radius", .num 0), ("done", .arr [])]

/-- A stored document with a zero radius and a truthy count. -/
def zeroRadiusLoadDoc : JVal :=
  .obj [("start", .arr [.num 0, .num 0, .num 0]), ("end", .arr [.num 1, .num 1, .num 1]),
        ("numCheckpoints", .num 5), ("radius", .num 0)]

/-- A stored document with a null radius and a truthy count. -/
def nullRadiusLoadDoc : JVal :=
  .obj [("start", .arr [.num 0, .num 0, .num 0]), ("end", .arr [.num 1, .num 1, .num 1]),
        ("numCheckpoints", .num 5), ("radius", .null)]

/-- C10: the import handler defaults present-but-zero numeric fields (a
zero numCheckpoints becomes 50, a zero radius 500), while load preserves a stored
radius of 0 and defaults only a null/absent radius to 500 — so import and
load disagree on zero-valued fields. -/
theorem c10_zero_field_defaults :
    (handleImportJSON defaultVars (some zeroFieldsDoc)).1.numCheckpoints = JVal.num 50 ∧
    (handleImportJSON defaultVars (some zeroFieldsDoc)).1.radius = JVal.num 500 ∧
    (loadEffect defaultVars (some (some zeroRadiusLoadDoc))).radius = JVal.num 0 ∧
    (loadEffect defaultVars (some (some nullRadiusLoadDoc))).radius = JVal.num 500 :=
  ⟨rfl, rfl, rfl, rfl⟩

end NMSPlanner
